import Mathlib

/- Verification of the dupgrind duplicate-photo review tool (src/main.rs).

   The development shallowly embeds the core of the program:
   the report parser `parse_dups`, the group store `DupGroups` with its
   lookups, and the three HTTP handlers `group`, `get_image` and
   `trash_image`.  Machine integers are modelled as `Nat` with explicit
   `% 2^32` where the Rust code uses `u32`; filesystem effects are
   modelled by an explicit `FS` state together with a trace of the
   operations a handler performs; fallible operations return
   `Option`/`Except`.

   External collaborators are modelled from their documented behaviour:
   the `sha256` crate is embedded as a full executable SHA-256
   implementation (checked below against the FIPS 180-4 test vectors),
   the `headers` crate's `ETag`/`IfNoneMatch` as their RFC 7232 parsing
   and weak-comparison rules, and `std::fs` as the `FS` state machine.
   Character classes of the `regex` crate (`\w`, `\s`, `\d`) are modelled
   on their ASCII ranges, which is faithful for all inputs used here. -/

set_option maxRecDepth 100000

namespace Dupgrind

/-! SHA-256, as computed by the `sha256` crate: `sha256::digest` returns the
    lowercase-hex digest of the UTF-8 bytes of its input string. -/

/-- Modulus for 32-bit words. -/
def M32 : Nat := 4294967296

/-- 32-bit wrapping addition. -/
def add32 (a b : Nat) : Nat := (a + b) % M32

/-- Rotate a 32-bit word right by the given amount. -/
def rotr (n x : Nat) : Nat := ((x >>> n) ||| (x <<< (32 - n))) % M32

/-- Logical right shift. -/
def shr (n x : Nat) : Nat := x >>> n

/-- 32-bit complement. -/
def not32 (x : Nat) : Nat := x ^^^ 4294967295

/-- The sixty-four round constants of FIPS 180-4 section 4.2.2 (values in
    decimal; the standard prints them in hex). -/
def shaK : List Nat :=
  [1116352408, 1899447441, 3049323471, 3921009573, 961987163, 1508970993,
   2453635748, 2870763221, 3624381080, 310598401, 607225278, 1426881987,
   1925078388, 2162078206, 2614888103, 3248222580, 3835390401, 4022224774,
   264347078, 604807628, 770255983, 1249150122, 1555081692, 1996064986,
   2554220882, 2821834349, 2952996808, 3210313671, 3336571891, 3584528711,
   113926993, 338241895, 666307205, 773529912, 1294757372, 1396182291,
   1695183700, 1986661051, 2177026350, 2456956037, 2730485921, 2820302411,
   3259730800, 3345764771, 3516065817, 3600352804, 4094571909, 275423344,
   430227734, 506948616, 659060556, 883997877, 958139571, 1322822218,
   1537002063, 1747873779, 1955562222, 2024104815, 2227730452, 2361852424,
   2428436474, 2756734187, 3204031479, 3329325298]

/-- The eight initial hash words of FIPS 180-4 section 5.3.3 (decimal). -/
def shaInitH : List Nat :=
  [1779033703, 3144134277, 1013904242, 2773480762, 1359893119, 2600822924,
   528734635, 1541459225]

/-- Upper-case sigma-0 of FIPS 180-4. -/
def bigSigma0 (x : Nat) : Nat := rotr 2 x ^^^ rotr 13 x ^^^ rotr 22 x

/-- Upper-case sigma-1 of FIPS 180-4. -/
def bigSigma1 (x : Nat) : Nat := rotr 6 x ^^^ rotr 11 x ^^^ rotr 25 x

/-- Lower-case sigma-0 of FIPS 180-4. -/
def smallSigma0 (x : Nat) : Nat := rotr 7 x ^^^ rotr 18 x ^^^ shr 3 x

/-- Lower-case sigma-1 of FIPS 180-4. -/
def smallSigma1 (x : Nat) : Nat := rotr 17 x ^^^ rotr 19 x ^^^ shr 10 x

/-- The choice function of FIPS 180-4. -/
def chf (x y z : Nat) : Nat := (x &&& y) ^^^ (not32 x &&& z)

/-- The majority function of FIPS 180-4. -/
def majf (x y z : Nat) : Nat := (x &&& y) ^^^ (x &&& z) ^^^ (y &&& z)

/-- Merkle-Damgard padding: append 0x80, zeros to 56 mod 64, then the
    64-bit big-endian bit length. -/
def padMessage (ms : List Nat) : List Nat :=
  let len := ms.length
  let padZeros := (119 - len % 64) % 64
  let bitLen := 8 * len
  ms ++ [128] ++ List.replicate padZeros 0 ++
    [(bitLen >>> 56) % 256, (bitLen >>> 48) % 256, (bitLen >>> 40) % 256, (bitLen >>> 32) % 256,
     (bitLen >>> 24) % 256, (bitLen >>> 16) % 256, (bitLen >>> 8) % 256, bitLen % 256]

/-- Split a 64-byte block into sixteen big-endian 32-bit words. -/
def toWords (block : List Nat) : List Nat :=
  (List.range 16).map (fun i =>
    block.getD (4 * i) 0 * 16777216 + block.getD (4 * i + 1) 0 * 65536 +
    block.getD (4 * i + 2) 0 * 256 + block.getD (4 * i + 3) 0)

/-- Extend the sixteen words of a block to the 64-entry message schedule. -/
def extendWords (ws : List Nat) : List Nat :=
  (List.range 48).foldl (fun acc _ =>
    let n := acc.length
    acc ++ [add32 (add32 (acc.getD (n - 16) 0) (smallSigma0 (acc.getD (n - 15) 0)))
                  (add32 (acc.getD (n - 7) 0) (smallSigma1 (acc.getD (n - 2) 0)))]) ws

/-- One SHA-256 compression round over a 64-byte block. -/
def compressBlock (hs : List Nat) (block : List Nat) : List Nat :=
  let ws := extendWords (toWords block)
  let final := (List.range 64).foldl (fun st i =>
    match st with
    | [a, b, c, d, e, f, g, hh] =>
      let t1 := add32 hh (add32 (bigSigma1 e)
        (add32 (chf e f g) (add32 (shaK.getD i 0) (ws.getD i 0))))
      let t2 := add32 (bigSigma0 a) (majf a b c)
      [add32 t1 t2, a, b, c, add32 d t1, e, f, g]
    | other => other) hs
  match hs, final with
  | [a, b, c, d, e, f, g, hh], [a2, b2, c2, d2, e2, f2, g2, h2] =>
      [add32 a a2, add32 b b2, add32 c c2, add32 d d2,
       add32 e e2, add32 f f2, add32 g g2, add32 hh h2]
  | _, _ => final

/-- SHA-256 digest of a byte sequence, as 32 bytes. -/
def sha256Bytes (ms : List Nat) : List Nat :=
  let padded := padMessage ms
  let blocks := (List.range (padded.length / 64)).map (fun i => (padded.drop (64 * i)).take 64)
  let hs := blocks.foldl compressBlock shaInitH
  (hs.map (fun w => [(w >>> 24) % 256, (w >>> 16) % 256, (w >>> 8) % 256, w % 256])).flatten

/-- Lower-case hex digit for a value below 16. -/
def hexDigitChar (n : Nat) : Char := Char.ofNat (if n < 10 then 48 + n else 87 + n)

/-- Two lower-case hex digits of a byte. -/
def byteToHexChars (b : Nat) : List Char := [hexDigitChar ((b >>> 4) % 16), hexDigitChar (b % 16)]

/-- Lower-case hex encoding of a byte sequence. -/
def hexChars (bs : List Nat) : List Char := (bs.map byteToHexChars).flatten

/-- UTF-8 encoding of one scalar value (the encoding Rust strings use). -/
def utf8EncodeChar (c : Char) : List Nat :=
  let n := c.toNat
  if n < 128 then [n]
  else if n < 2048 then [192 + (n >>> 6), 128 + (n &&& 63)]
  else if n < 65536 then [224 + (n >>> 12), 128 + ((n >>> 6) &&& 63), 128 + (n &&& 63)]
  else [240 + (n >>> 18), 128 + ((n >>> 12) &&& 63), 128 + ((n >>> 6) &&& 63), 128 + (n &&& 63)]

/-- UTF-8 bytes of a string. -/
def utf8Bytes (s : String) : List Nat := (s.data.map utf8EncodeChar).flatten

/-- The model of `sha256::digest`: lowercase-hex SHA-256 of a string. -/
def sha256hex (s : String) : String := String.mk (hexChars (sha256Bytes (utf8Bytes s)))

/-! Byte-wise lexicographic order on paths, as used by Rust's `str` `Ord`
    (for valid UTF-8, byte order and scalar-value order coincide). -/

/-- Lexicographic less-or-equal on char lists by scalar value. -/
def lexLe : List Char → List Char → Bool
  | [], _ => true
  | _ :: _, [] => false
  | a :: as, b :: bs =>
    if a.toNat < b.toNat then true
    else if b.toNat < a.toNat then false
    else lexLe as bs

/-! Data model: `ImgInfo`, `DupGroup`, `DupGroups` (src/main.rs lines 32-71). -/

/-- The path and size of a single - potentially duplicate - image.
    `width`/`height` are `u32` in the source; the parser below only ever
    stores values below `2^32`. -/
structure ImgInfo where
  path : String
  width : Nat
  height : Nat
deriving DecidableEq

/-- A set of (potentially) duplicate images. -/
abbrev DupGroup := List ImgInfo

/-- All sets of duplicate images found in a photodedupe run. -/
structure DupGroups where
  groups : List DupGroup
deriving DecidableEq

/-- `DupGroups::new`; the capacity guess has no observable effect. -/
def DupGroups.new (_size_guess : Nat) : DupGroups := ⟨[]⟩

/-- `DupGroups::push_group`. -/
def DupGroups.push_group (d : DupGroups) (group : DupGroup) : DupGroups :=
  ⟨d.groups ++ [group]⟩

/-- `DupGroups::num_groups`. -/
def DupGroups.num_groups (d : DupGroups) : Nat := d.groups.length

/-- `DupGroups::get_group` (`Vec::get`, total, returns `None` out of range). -/
def DupGroups.get_group (d : DupGroups) (group_idx : Nat) : Option DupGroup :=
  d.groups[group_idx]?

/-- `DupGroups::get_image`: group lookup followed by image lookup. -/
def DupGroups.get_image (d : DupGroups) (group_idx image_idx : Nat) : Option ImgInfo :=
  match d.groups[group_idx]? with
  | none => none
  | some group => group[image_idx]?

/-! Report parser (src/main.rs lines 80-127).  The line regex
    is modelled by a deterministic maximal-munch scanner, which agrees with
    the regex because the classes of adjacent repetitions are disjoint
    from the character that follows them.  Classes are the ASCII ranges of
    the regex classes. -/

/-- ASCII model of the regex class for whitespace. -/
def isSpaceChar (c : Char) : Bool :=
  c == ' ' || c == '\t' || c == '\n' || c == '\r' || c == Char.ofNat 11 || c == Char.ofNat 12

/-- ASCII model of the regex class for word characters. -/
def isWordChar (c : Char) : Bool :=
  decide ((97 ≤ c.toNat ∧ c.toNat ≤ 122) ∨ (65 ≤ c.toNat ∧ c.toNat ≤ 90) ∨
    (48 ≤ c.toNat ∧ c.toNat ≤ 57) ∨ c.toNat = 95)

/-- ASCII model of the regex class for digits. -/
def isDigitChar (c : Char) : Bool := decide (48 ≤ c.toNat ∧ c.toNat ≤ 57)

/-- Capture groups of the line pattern: width digits, height digits, path.
    `none` when the line does not match. -/
def matchLine (cs : List Char) : Option (List Char × List Char × List Char) :=
  let r0 := cs.dropWhile isSpaceChar
  let word := r0.takeWhile isWordChar
  if word.isEmpty then none else
  match r0.dropWhile isWordChar with
  | '(' :: r1 =>
    let w := r1.takeWhile isDigitChar
    if w.isEmpty then none else
    match r1.dropWhile isDigitChar with
    | 'x' :: r2 =>
      let h := r2.takeWhile isDigitChar
      if h.isEmpty then none else
      match r2.dropWhile isDigitChar with
      | ')' :: ':' :: ' ' :: path => if path.isEmpty then none else some (w, h, path)
      | _ => none
    | _ => none
  | _ => none

/-- Numeric value of a digit string. -/
def digitsToNat (ds : List Char) : Nat := ds.foldl (fun acc c => 10 * acc + (c.toNat - 48)) 0

/-- Model of `str::parse::<u32>` on a captured digit string: the value, or
    Rust's `ParseIntError` overflow message.  (On an all-digit string the
    only failure mode is overflow.) -/
def parseU32 (ds : List Char) : Except String Nat :=
  let n := digitsToNat ds
  if n < 4294967296 then .ok n else .error "number too large to fit in target type"

/-- A line whose first character is a tab, i.e. `line.starts_with` of a tab. -/
def startsWithTab : List Char → Bool
  | c :: _ => c == '\t'
  | [] => false

/-- The per-line loop of `parse_dups`: `acc` is the flushed groups so far,
    `group` the in-flight group.  A tab-less line flushes a non-empty
    in-flight group first; every line must match the pattern; width and
    height are parsed as `u32` (width first, as in the struct literal). -/
def parseLinesAux : List String → List DupGroup → DupGroup → Except String (List DupGroup)
  | [], acc, group => .ok (if group.isEmpty then acc else acc ++ [group])
  | line :: rest, acc, group =>
    let st :=
      if startsWithTab line.data then (acc, group)
      else (if group.isEmpty then acc else acc ++ [group], ([] : DupGroup))
    match matchLine line.data with
    | none => .error ("Line does not match expected format: " ++ line)
    | some (w, h, p) =>
      match parseU32 w with
      | .error e => .error e
      | .ok wv =>
        match parseU32 h with
        | .error e => .error e
        | .ok hv => parseLinesAux rest st.1 (st.2 ++ [{ path := String.mk p, width := wv, height := hv }])

/-- Sort key: the path of a group's first image.  The source indexes with
    `group[0]`; the parser never produces an empty group (proved below), so
    the default for `[]` is never read. -/
def firstPath (g : DupGroup) : List Char :=
  match g with
  | [] => []
  | i :: _ => i.path.data

/-- The order `sort_unstable_by_key` sorts by: first-image path,
    byte-lexicographic. -/
def groupLe (g1 g2 : DupGroup) : Prop := lexLe (firstPath g1) (firstPath g2) = true

instance : DecidableRel groupLe := fun g1 g2 =>
  inferInstanceAs (Decidable (lexLe (firstPath g1) (firstPath g2) = true))

/-- The final sort of `parse_dups`.  `sort_unstable_by_key` produces some
    sorted-by-key permutation; we fix the (deterministic) insertion-sort
    one, which is observably equivalent for the claims here. -/
def sortGroups (gs : List DupGroup) : List DupGroup := List.insertionSort groupLe gs

/-- `parse_dups`, over the report's lines (the source reads them from the
    file named on the command line; `BufRead::lines` strips terminators). -/
def parse_dups (lines : List String) : Except String DupGroups :=
  match parseLinesAux lines [] [] with
  | .error e => .error e
  | .ok gs => .ok ⟨sortGroups gs⟩

/-! Filesystem model for `std::fs` / `tokio::fs` as used by the handlers:
    an explicit state of files and directories, plus a trace type recording
    which operations a handler performed. -/

/-- The I/O error kinds the modelled operations can produce, with
    `to_string` rendering them the way Rust's `io::Error` displays. -/
inductive IOErr where
  | notFound (path : String)
  | permissionDenied (path : String)
deriving DecidableEq

/-- Display of an `io::Error`, as `err.to_string()` produces it. -/
def IOErr.toMessage : IOErr → String
  | .notFound _ => "No such file or directory (os error 2)"
  | .permissionDenied _ => "Permission denied (os error 13)"

/-- State of one file: openable or not, and whether a stat after a
    successful open fails (an I/O failure other than not-found). -/
inductive FileMeta where
  | denied
  | present (statFails : Bool) (size : Nat)
deriving DecidableEq

/-- Filesystem state: files by path, the set of existing directories, and
    directories whose creation would fail. -/
structure FS where
  files : List (String × FileMeta)
  dirs : List String
  deniedDirs : List String
deriving DecidableEq

/-- Association lookup of a path. -/
def FS.lookup (fs : FS) (p : String) : Option FileMeta :=
  (fs.files.find? (fun e => e.1 == p)).map (fun e => e.2)

/-- `File::open`: not-found when the path is absent, permission-denied when
    the file is not openable, otherwise a handle (stat behaviour, size). -/
def FS.openFile (fs : FS) (p : String) : Except IOErr (Bool × Nat) :=
  match fs.lookup p with
  | none => .error (.notFound p)
  | some .denied => .error (.permissionDenied p)
  | some (.present sf sz) => .ok (sf, sz)

/-- `File::metadata` followed by `len()` on an open handle. -/
def FS.statSize : Bool × Nat → Except String Nat
  | (true, _) => .error "stat failed"
  | (false, sz) => .ok sz

/-- `fs::create_dir_all`: fails on a denied directory, otherwise records
    the directory (ancestor creation is collapsed into the one entry). -/
def FS.createDirAll (fs : FS) (d : String) : Except IOErr FS :=
  if d ∈ fs.deniedDirs then .error (.permissionDenied d)
  else .ok { fs with dirs := d :: fs.dirs }

/-- Remove a key from the file table. -/
def eraseKey (files : List (String × FileMeta)) (p : String) : List (String × FileMeta) :=
  files.filter (fun e => !(e.1 == p))

/-- `fs::rename`: fails with not-found when the source is absent, otherwise
    moves the entry (replacing any destination), same-filesystem semantics. -/
def FS.rename (fs : FS) (src dst : String) : Except IOErr FS :=
  match fs.lookup src with
  | none => .error (.notFound src)
  | some m => .ok { fs with files := (dst, m) :: eraseKey (eraseKey fs.files src) dst }

/-- Trace of the filesystem operations a handler performed. -/
inductive FsOp where
  | openOp (path : String)
  | statOp (path : String)
  | createDirAllOp (path : String)
  | renameOp (src dst : String)
deriving DecidableEq

/-- `Path::join` for the relative paths stored in the report. -/
def pathJoin (a b : String) : String := a ++ "/" ++ b

/-- `Path::parent`: the prefix before the last separator; `some ""` for a
    bare file name, `none` for the empty path (roots are not modelled). -/
def pathParent (s : String) : Option String :=
  match s.data.reverse.dropWhile (fun c => !(c == '/')) with
  | '/' :: rest => some (String.mk rest.reverse)
  | _ => if s.data.isEmpty then none else some ""

/-! HTTP-layer models: entity tags and conditional requests per the
    `headers` crate (RFC 7232), and content-type guessing per `mime_guess`. -/

/-- RFC 7232 `etagc`: a character allowed inside a quoted entity tag. -/
def etagc (c : Char) : Bool := decide (c.toNat = 33 ∨ (35 ≤ c.toNat ∧ c.toNat ≤ 126))

/-- `str::parse::<ETag>`: accepts a double-quoted string of `etagc`
    characters and returns it unchanged (the weak `W/` form never arises
    here because the computed tag always begins with a quote). -/
def parseETag (s : String) : Option String :=
  match s.data with
  | c :: rest =>
    if c = '"' ∧ rest ≠ [] ∧ rest.dropLast.all etagc = true ∧ rest.getLast? = some '"'
    then some s else none
  | [] => none

/-- The `If-None-Match` request header: a wildcard or a list of tags. -/
structure IfNoneMatch where
  wildcard : Bool
  tags : List String

/-- Strip a weak-tag prefix for RFC 7232 weak comparison. -/
def stripWeak (s : String) : String :=
  if s.data.take 2 = ['W', '/'] then String.mk (s.data.drop 2) else s

/-- RFC 7232 weak comparison of two entity tags. -/
def etagWeakEq (a b : String) : Bool := stripWeak a == stripWeak b

/-- `IfNoneMatch::precondition_passes`: the request may proceed only when
    no listed tag weakly matches (and the header is not a wildcard). -/
def IfNoneMatch.precondition_passes (inm : IfNoneMatch) (etag : String) : Bool :=
  !(inm.wildcard || inm.tags.any (fun t => etagWeakEq t etag))

/-- Model of `mime_guess::from_path(..).first_raw()` for common image
    extensions (content type is not the subject of any claim). -/
def mimeGuess (path : String) : Option String :=
  let rev := path.data.reverse
  let extRev := rev.takeWhile (fun c => !(c == '.') && !(c == '/'))
  match rev.drop extRev.length with
  | '.' :: _ =>
    let ext := String.mk extRev.reverse
    if ext == "jpg" || ext == "jpeg" then some "image/jpeg"
    else if ext == "png" then some "image/png"
    else if ext == "gif" then some "image/gif"
    else if ext == "webp" then some "image/webp"
    else none
  | _ => none

/-! The shared state and the three route handlers
    (src/main.rs lines 73-78 and 176-280). -/

/-- Shared state for passing to route handlers. -/
structure AppState where
  dups : DupGroups
  base_dir : String
  trash_dir : String

/-- The canonical string the entity tag hashes, from `get_image`:
    base directory, group index, image index and relative path, joined
    with colons. -/
def canonicalTag (base_dir : String) (group_idx image_idx : Nat) (path : String) : String :=
  base_dir ++ ":" ++ toString group_idx ++ ":" ++ toString image_idx ++ ":" ++ path

/-- The computed entity tag: quoted hex SHA-256 of the canonical string. -/
def etagValue (base_dir : String) (group_idx image_idx : Nat) (path : String) : String :=
  "\"" ++ sha256hex (canonicalTag base_dir group_idx image_idx path) ++ "\""

/-- The distinct responses `get_image` can produce.  `notModified` carries
    headers but no body; `fullBody` streams the file (its length is the
    stat size). -/
inductive GetImageResponse where
  | notFound (msg : String)
  | etagParseError (msg : String)
  | notModified (contentType : String) (etag : String)
  | redirect (location : String)
  | statError (msg : String)
  | fullBody (contentType : String) (etag : String) (contentLength : Nat)
deriving DecidableEq

/-- HTTP status of each `get_image` outcome (`Redirect::to` is 303). -/
def statusOf : GetImageResponse → Nat
  | .notFound _ => 404
  | .etagParseError _ => 500
  | .notModified _ _ => 304
  | .redirect _ => 303
  | .statError _ => 500
  | .fullBody _ _ _ => 200

/-- The `get_image` handler (src/main.rs lines 198-244), with the
    filesystem state explicit and a trace of the operations performed. -/
def get_image (st : AppState) (fs : FS) (group_idx image_idx : Nat) (if_none_match : IfNoneMatch) :
    GetImageResponse × List FsOp :=
  match st.dups.get_image group_idx image_idx with
  | none => (.notFound "Invalid group or image index", [])
  | some image =>
    let content_type := (mimeGuess image.path).getD "application/octet-stream"
    let etag_value := etagValue st.base_dir group_idx image_idx image.path
    match parseETag etag_value with
    | none => (.etagParseError ("Failed to parse etag: " ++ etag_value), [])
    | some etag =>
      if !(if_none_match.precondition_passes etag) then
        (.notModified content_type etag_value, [])
      else
        let source_path := pathJoin st.base_dir image.path
        match fs.openFile source_path with
        | .error _ => (.redirect "/static/missing.png", [.openOp source_path])
        | .ok file =>
          match FS.statSize file with
          | .error _ => (.statError "Failed to stat file", [.openOp source_path, .statOp source_path])
          | .ok size =>
            (.fullBody content_type etag_value size, [.openOp source_path, .statOp source_path])

/-- Result of the `trash_image` handler: the filesystem after the call,
    the operations performed, and the HTTP status and body returned. -/
structure TrashResult where
  fs : FS
  ops : List FsOp
  status : Nat
  body : String
deriving DecidableEq

/-- The `trash_image` handler (src/main.rs lines 246-280). -/
def trash_image (st : AppState) (fs : FS) (group_idx image_idx : Nat) : TrashResult :=
  match st.dups.get_image group_idx image_idx with
  | none => ⟨fs, [], 404, "Invalid group or image index"⟩
  | some image =>
    let source_path := pathJoin st.base_dir image.path
    let target_path := pathJoin st.trash_dir image.path
    match pathParent target_path with
    | none => ⟨fs, [], 500, "Target has no parent"⟩
    | some target_parent =>
      match fs.createDirAll target_parent with
      | .error err => ⟨fs, [.createDirAllOp target_parent], 500, err.toMessage⟩
      | .ok fs1 =>
        match fs1.rename source_path target_path with
        | .error err =>
          ⟨fs1, [.createDirAllOp target_parent, .renameOp source_path target_path], 500, err.toMessage⟩
        | .ok fs2 =>
          ⟨fs2, [.createDirAllOp target_parent, .renameOp source_path target_path], 200, "Deleted"⟩

/-- Responses of the `group` page handler. -/
inductive GroupResponse where
  | redirect (location : String)
  | page (group_idx : Nat) (is_next_group : Bool) (group : DupGroup)
deriving DecidableEq

/-- The `group` page handler (src/main.rs lines 176-188): an invalid index
    redirects to group 0; otherwise the template is rendered with
    `is_next_group` computed by the `usize` subtraction `num_groups() - 1`
    (truncated subtraction, reached only when `num_groups` is positive). -/
def group (st : AppState) (group_idx : Nat) : GroupResponse :=
  match st.dups.get_group group_idx with
  | none => .redirect "/group/0"
  | some g => .page group_idx (decide (group_idx < st.dups.num_groups - 1)) g

/-! Predicates describing individual report lines, used to state the
    parse-error claims, and concrete fixtures used by witnesses and
    counterexamples. -/

/-- A line whose width or height capture overflows `u32`. -/
def lineOverflows (l : String) : Bool :=
  match matchLine l.data with
  | some (w, h, _) => decide (4294967296 ≤ digitsToNat w) || decide (4294967296 ≤ digitsToNat h)
  | none => false

/-- A line the parser accepts outright: it matches the pattern and neither
    dimension overflows. -/
def lineOk (l : String) : Prop := matchLine l.data ≠ none ∧ lineOverflows l = false

/-- Fixture: a store with one group holding one image. -/
def stOne : AppState := ⟨⟨[[⟨"a.jpg", 1, 1⟩]]⟩, "base", "base/trash"⟩

/-- Fixture: a store with no groups. -/
def stEmpty : AppState := ⟨⟨[]⟩, "base", "base/trash"⟩

/-- Fixture: the image file exists and stats fine. -/
def fsOne : FS := ⟨[("base/a.jpg", .present false 5)], [], []⟩

/-- Fixture: the image file exists but opening it is denied. -/
def fsDenied : FS := ⟨[("base/a.jpg", .denied)], [], []⟩

/-- Fixture: the image file opens but its stat fails. -/
def fsStatFails : FS := ⟨[("base/a.jpg", .present true 5)], [], []⟩

/-- Fixture: no files at all. -/
def fsEmpty : FS := ⟨[], [], []⟩

/-- Fixture: an If-None-Match header listing no tags. -/
def inmNone : IfNoneMatch := ⟨false, []⟩

/-- Fixture: the wildcard If-None-Match header. -/
def inmStar : IfNoneMatch := ⟨true, []⟩

/-! From here on: theorems.  First the lemmas that ground and support the
    embedding, then one theorem (with witness or counterexample) per claim. -/

/-- Ground the embedding of the hash: the one-block FIPS 180-4 test vector. -/
theorem sha256hex_vector_abc :
    sha256hex "abc" = "ba7816bf8f01cfea414140de5dae2223b00361a396177a9cb410ff61f20015ad" := by
  decide

/-- Ground the embedding of the hash: the empty-message test vector. -/
theorem sha256hex_vector_empty :
    sha256hex "" = "e3b0c44298fc1c149afbf4c8996fb92427ae41e4649b934ca495991b7852b855" := by
  decide

/-- Ground the embedding of the hash: the two-block FIPS 180-4 test vector. -/
theorem sha256hex_vector_two_blocks :
    sha256hex "abcdbcdecdefdefgefghfghighijhijkijkljklmklmnlmnomnopnopq" =
      "248d6a61d20638b8e5c026930c3e6039a33ce45964ff2167f6ecedd419db06c1" := by
  decide

theorem lexLe_cons_cons (x y : Char) (xs ys : List Char) :
    lexLe (x :: xs) (y :: ys) = true ↔
      (x.toNat < y.toNat ∨ (x.toNat = y.toNat ∧ lexLe xs ys = true)) := by
  simp only [lexLe]
  split_ifs with h1 h2
  · simp [h1]
  · simp only [Bool.false_eq_true, false_iff]
    rintro (h | ⟨h, -⟩) <;> omega
  · have hxy : x.toNat = y.toNat := by omega
    simp [hxy]

theorem lexLe_total (a b : List Char) : lexLe a b = true ∨ lexLe b a = true := by
  induction a generalizing b with
  | nil => exact Or.inl rfl
  | cons x xs ih =>
    cases b with
    | nil => exact Or.inr rfl
    | cons y ys =>
      rcases Nat.lt_trichotomy x.toNat y.toNat with h | h | h
      · exact Or.inl ((lexLe_cons_cons x y xs ys).mpr (Or.inl h))
      · rcases ih ys with h' | h'
        · exact Or.inl ((lexLe_cons_cons x y xs ys).mpr (Or.inr ⟨h, h'⟩))
        · exact Or.inr ((lexLe_cons_cons y x ys xs).mpr (Or.inr ⟨h.symm, h'⟩))
      · exact Or.inr ((lexLe_cons_cons y x ys xs).mpr (Or.inl h))

theorem lexLe_trans {a b c : List Char} (hab : lexLe a b = true) (hbc : lexLe b c = true) :
    lexLe a c = true := by
  induction a generalizing b c with
  | nil => rfl
  | cons x xs ih =>
    cases b with
    | nil => simp [lexLe] at hab
    | cons y ys =>
      cases c with
      | nil => simp [lexLe] at hbc
      | cons z zs =>
        rw [lexLe_cons_cons] at hab hbc ⊢
        rcases hab with h1 | ⟨h1, h1'⟩ <;> rcases hbc with h2 | ⟨h2, h2'⟩
        · exact Or.inl (h1.trans h2)
        · exact Or.inl (by omega)
        · exact Or.inl (by omega)
        · exact Or.inr ⟨by omega, ih h1' h2'⟩

/-- C6: the Group Store lookups are total functions into `Option`:
    `get_group` returns `none` exactly for out-of-range group indices, and
    `get_image` returns `none` exactly when the group index or, within an
    existing group, the image index is out of range.  (Totality itself -
    "never panic" - is by construction: both are plain functions.) -/
theorem C6_lookup_total (d : DupGroups) (group_idx image_idx : Nat) :
    (d.get_group group_idx = none ↔ d.num_groups ≤ group_idx) ∧
    (d.get_image group_idx image_idx = none ↔
      (d.num_groups ≤ group_idx ∨ (d.groups.getD group_idx []).length ≤ image_idx)) := by
  constructor
  · exact List.getElem?_eq_none_iff
  · unfold DupGroups.get_image DupGroups.num_groups
    cases h : d.groups[group_idx]? with
    | none =>
      have hlen : d.groups.length ≤ group_idx := List.getElem?_eq_none_iff.mp h
      simp [hlen]
    | some g =>
      have hlt : group_idx < d.groups.length := by
        by_contra hn
        rw [List.getElem?_eq_none (by omega)] at h
        exact Option.noConfusion h
      have hD : d.groups.getD group_idx [] = g := by simp [List.getD, h]
      rw [hD]
      simp only [List.getElem?_eq_none_iff]
      constructor
      · intro hnone; exact Or.inr hnone
      · rintro (hle | hle)
        · omega
        · exact hle

/-- C10: the group-page handler is total and safe on every store: an
    out-of-range index (in particular any index on the empty store, so
    `/group/0` on the empty store redirects to itself) yields a redirect to
    `/group/0`; and whenever the lookup succeeds - the only path on which
    the `usize` subtraction `num_groups() - 1` in `is_next_group` is
    evaluated - the store is non-empty, so the subtraction cannot
    underflow. -/
theorem C10_group_page_safe (st : AppState) (group_idx : Nat) :
    (st.dups.get_group group_idx = none → group st group_idx = .redirect "/group/0") ∧
    (st.dups.groups = [] → group st 0 = .redirect "/group/0") ∧
    (∀ g, st.dups.get_group group_idx = some g → 1 ≤ st.dups.num_groups) := by
  refine ⟨fun h => ?_, fun h => ?_, fun g h => ?_⟩
  · simp [group, h]
  · simp [group, DupGroups.get_group, h]
  · unfold DupGroups.get_group at h
    have hlt : group_idx < st.dups.groups.length := by
      by_contra hn
      rw [List.getElem?_eq_none (by omega)] at h
      exact Option.noConfusion h
    unfold DupGroups.num_groups
    omega

/-- C10 witness: on the empty store, fetching group 0 redirects to
    `/group/0` itself. -/
theorem C10_group_page_safe_witness : group stEmpty 0 = .redirect "/group/0" :=
  (C10_group_page_safe stEmpty 0).2.1 rfl

/-- C9: quarantining an out-of-range address returns 404 with an unchanged
    filesystem and an empty operation trace: no directory is created and no
    rename is attempted. -/
theorem C9_trash_invalid_untouched (st : AppState) (fs : FS) (group_idx image_idx : Nat)
    (h : st.dups.get_image group_idx image_idx = none) :
    trash_image st fs group_idx image_idx = ⟨fs, [], 404, "Invalid group or image index"⟩ := by
  simp [trash_image, h]

/-- C9 witness: quarantining group 5 of the one-group store leaves the
    filesystem untouched and returns 404. -/
theorem C9_trash_invalid_untouched_witness :
    trash_image stOne fsOne 5 0 = ⟨fsOne, [], 404, "Invalid group or image index"⟩ :=
  C9_trash_invalid_untouched stOne fsOne 5 0 rfl

/-- C7 counterexample: the claim says the 404 message distinguishes an
    invalid group index from an invalid image index, but both handlers
    return the one fixed message "Invalid group or image index" in both
    cases: on the one-group/one-image store, an out-of-range group index
    (1,0) and an out-of-range image index (0,1) produce identical
    messages, so the message cannot distinguish the invalid coordinate. -/
theorem C7_counterexample :
    (trash_image stOne fsOne 1 0).body = "Invalid group or image index" ∧
    (trash_image stOne fsOne 0 1).body = "Invalid group or image index" ∧
    (get_image stOne fsOne 1 0 inmNone).1 = .notFound "Invalid group or image index" ∧
    (get_image stOne fsOne 0 1 inmNone).1 = .notFound "Invalid group or image index" :=
  ⟨rfl, rfl, rfl, rfl⟩

/-- C7 amended: for every out-of-range address both handlers return
    HTTP 404, with the one fixed (coordinate-agnostic) message
    "Invalid group or image index". -/
theorem C7_notfound_message (st : AppState) (fs : FS) (group_idx image_idx : Nat)
    (inm : IfNoneMatch) (h : st.dups.get_image group_idx image_idx = none) :
    get_image st fs group_idx image_idx inm = (.notFound "Invalid group or image index", []) ∧
    trash_image st fs group_idx image_idx = ⟨fs, [], 404, "Invalid group or image index"⟩ := by
  constructor
  · simp [get_image, h]
  · simp [trash_image, h]

/-- C7 amended witness: group index 1 is out of range on the one-group
    store; both handlers return the fixed 404 message. -/
theorem C7_notfound_message_witness :
    get_image stOne fsOne 1 0 inmNone = (.notFound "Invalid group or image index", []) ∧
    trash_image stOne fsOne 1 0 = ⟨fsOne, [], 404, "Invalid group or image index"⟩ :=
  C7_notfound_message stOne fsOne 1 0 inmNone rfl

/-- Looking up an erased key finds nothing. -/
theorem find?_eraseKey_self (l : List (String × FileMeta)) (k : String) :
    (eraseKey l k).find? (fun e => e.1 == k) = none := by
  induction l with
  | nil => rfl
  | cons e l ih =>
    cases he : e.1 == k with
    | true =>
      have h1 : eraseKey (e :: l) k = eraseKey l k := by
        simp [eraseKey, List.filter_cons, he]
      rw [h1]; exact ih
    | false =>
      have h1 : eraseKey (e :: l) k = e :: eraseKey l k := by
        simp [eraseKey, List.filter_cons, he]
      rw [h1]
      have h2 : List.find? (fun x => x.1 == k) (e :: eraseKey l k) =
          List.find? (fun x => x.1 == k) (eraseKey l k) := by
        simp [List.find?, he]
      rw [h2]; exact ih

/-- Erasing one key does not affect lookups of a different key. -/
theorem find?_eraseKey_ne (l : List (String × FileMeta)) {k k' : String} (h : k ≠ k') :
    (eraseKey l k').find? (fun e => e.1 == k) = l.find? (fun e => e.1 == k) := by
  induction l with
  | nil => rfl
  | cons e l ih =>
    cases he : e.1 == k' with
    | true =>
      have he' : e.1 = k' := by rwa [beq_iff_eq] at he
      have hk : (e.1 == k) = false := by
        rw [beq_eq_false_iff_ne, he']
        exact fun hh => h hh.symm
      have h1 : eraseKey (e :: l) k' = eraseKey l k' := by
        simp [eraseKey, List.filter_cons, he]
      have h2 : List.find? (fun x => x.1 == k) (e :: l) =
          List.find? (fun x => x.1 == k) l := by
        simp [List.find?, hk]
      rw [h1, h2]; exact ih
    | false =>
      have h1 : eraseKey (e :: l) k' = e :: eraseKey l k' := by
        simp [eraseKey, List.filter_cons, he]
      rw [h1]
      cases hk : e.1 == k with
      | true => simp [List.find?, hk]
      | false =>
        have h2 : List.find? (fun x => x.1 == k) (e :: eraseKey l k') =
            List.find? (fun x => x.1 == k) (eraseKey l k') := by
          simp [List.find?, hk]
        have h3 : List.find? (fun x => x.1 == k) (e :: l) =
            List.find? (fun x => x.1 == k) l := by
          simp [List.find?, hk]
        rw [h2, h3]; exact ih

/-- C1: quarantining a valid address whose target path has a creatable
    parent directory first creates the missing directories under the trash
    directory, then renames `baseDirectory/relativePath` to
    `trashDirectory/relativePath` - the operation trace is exactly one
    `create_dir_all` followed by one `rename`, never an open/copy - and
    returns 200 "Deleted", with the file present under the target key and
    gone from the source key; if instead the source file is absent (for
    example because it was already trashed), the same single rename
    attempt fails and the handler returns 500 carrying the filesystem
    error text, with no retry. -/
theorem C1_quarantine_moves_file (st : AppState) (fs : FS) (group_idx image_idx : Nat)
    (image : ImgInfo) (target_parent : String)
    (himg : st.dups.get_image group_idx image_idx = some image)
    (hparent : pathParent (pathJoin st.trash_dir image.path) = some target_parent)
    (hdir : target_parent ∉ fs.deniedDirs)
    (hne : pathJoin st.base_dir image.path ≠ pathJoin st.trash_dir image.path) :
    (∀ m : FileMeta, fs.lookup (pathJoin st.base_dir image.path) = some m →
       trash_image st fs group_idx image_idx =
         ⟨⟨(pathJoin st.trash_dir image.path, m) ::
             eraseKey (eraseKey fs.files (pathJoin st.base_dir image.path))
               (pathJoin st.trash_dir image.path),
           target_parent :: fs.dirs, fs.deniedDirs⟩,
          [.createDirAllOp target_parent,
           .renameOp (pathJoin st.base_dir image.path) (pathJoin st.trash_dir image.path)],
          200, "Deleted"⟩ ∧
       (trash_image st fs group_idx image_idx).fs.lookup (pathJoin st.trash_dir image.path) = some m ∧
       (trash_image st fs group_idx image_idx).fs.lookup (pathJoin st.base_dir image.path) = none) ∧
    (fs.lookup (pathJoin st.base_dir image.path) = none →
       trash_image st fs group_idx image_idx =
         ⟨⟨fs.files, target_parent :: fs.dirs, fs.deniedDirs⟩,
          [.createDirAllOp target_parent,
           .renameOp (pathJoin st.base_dir image.path) (pathJoin st.trash_dir image.path)],
          500, (IOErr.notFound (pathJoin st.base_dir image.path)).toMessage⟩) := by
  constructor
  · intro m hm
    have heq : trash_image st fs group_idx image_idx =
        ⟨⟨(pathJoin st.trash_dir image.path, m) ::
            eraseKey (eraseKey fs.files (pathJoin st.base_dir image.path))
              (pathJoin st.trash_dir image.path),
          target_parent :: fs.dirs, fs.deniedDirs⟩,
         [.createDirAllOp target_parent,
          .renameOp (pathJoin st.base_dir image.path) (pathJoin st.trash_dir image.path)],
         200, "Deleted"⟩ := by
      simp only [trash_image, himg, hparent, FS.createDirAll, if_neg hdir, FS.rename]
      have hm1 : FS.lookup ⟨fs.files, target_parent :: fs.dirs, fs.deniedDirs⟩
          (pathJoin st.base_dir image.path) = some m := hm
      rw [hm1]
    refine ⟨heq, ?_, ?_⟩
    · rw [heq]
      simp [FS.lookup, List.find?]
    · rw [heq]
      unfold FS.lookup
      simp only [List.find?]
      have hbeq : (pathJoin st.trash_dir image.path == pathJoin st.base_dir image.path) = false := by
        rw [beq_eq_false_iff_ne]
        exact fun hh => hne hh.symm
      rw [hbeq]
      rw [find?_eraseKey_ne _ hne, find?_eraseKey_self]
      rfl
  · intro hm
    simp only [trash_image, himg, hparent, FS.createDirAll, if_neg hdir, FS.rename]
    have hm1 : FS.lookup ⟨fs.files, target_parent :: fs.dirs, fs.deniedDirs⟩
        (pathJoin st.base_dir image.path) = none := hm
    rw [hm1]

/-- C1 witness: concretely quarantining the one image moves
    `base/a.jpg` to `base/trash/a.jpg` and returns 200 "Deleted". -/
theorem C1_quarantine_moves_file_witness :
    trash_image stOne fsOne 0 0 =
      ⟨⟨[("base/trash/a.jpg", .present false 5)], ["base/trash"], []⟩,
       [.createDirAllOp "base/trash", .renameOp "base/a.jpg" "base/trash/a.jpg"],
       200, "Deleted"⟩ ∧
    (trash_image stOne fsOne 0 0).fs.lookup "base/trash/a.jpg" = some (.present false 5) ∧
    (trash_image stOne fsOne 0 0).fs.lookup "base/a.jpg" = none := by
  have h := (C1_quarantine_moves_file stOne fsOne 0 0 ⟨"a.jpg", 1, 1⟩ "base/trash" rfl rfl
    (by decide) (by decide)).1 (.present false 5) rfl
  exact ⟨h.1, h.2.1, h.2.2⟩

/-- Hex digits are legal entity-tag characters. -/
theorem etagc_hexDigitChar : ∀ n, n < 16 → etagc (hexDigitChar n) = true := by decide

/-- Every character of a hex encoding is a legal entity-tag character. -/
theorem hexChars_all_etagc (bs : List Nat) : (hexChars bs).all etagc = true := by
  induction bs with
  | nil => rfl
  | cons b bs ih =>
    have h1 : hexChars (b :: bs) = byteToHexChars b ++ hexChars bs := by
      simp [hexChars]
    have hb1 : etagc (hexDigitChar ((b >>> 4) % 16)) = true :=
      etagc_hexDigitChar _ (Nat.mod_lt _ (by norm_num))
    have hb2 : etagc (hexDigitChar (b % 16)) = true :=
      etagc_hexDigitChar _ (Nat.mod_lt _ (by norm_num))
    rw [h1, List.all_append]
    simp [byteToHexChars, hb1, hb2, ih]

/-- A double-quoted string of legal entity-tag characters parses as an
    entity tag (to itself). -/
theorem parseETag_quoted (m : String) (hm : m.data.all etagc = true) :
    parseETag ("\"" ++ m ++ "\"") = some ("\"" ++ m ++ "\"") := by
  have hdata : ("\"" ++ m ++ "\"" : String).data = '"' :: (m.data ++ ['"']) := by
    rw [String.data_append, String.data_append]
    rfl
  simp only [parseETag, hdata]
  rw [if_pos]
  exact ⟨trivial, by simp, by rw [List.dropLast_concat]; exact hm, List.getLast?_concat _⟩

/-- The computed entity tag always parses back successfully: the
    `Failed to parse etag` branch of `get_image` is dead. -/
theorem parseETag_etagValue (b : String) (group_idx image_idx : Nat) (p : String) :
    parseETag (etagValue b group_idx image_idx p) = some (etagValue b group_idx image_idx p) := by
  unfold etagValue
  exact parseETag_quoted _ (hexChars_all_etagc _)

/-- C8 counterexample: the claim says a non-not-found open failure (such
    as a permission error) surfaces as HTTP 500, but `get_image` matches on
    any open failure with a plain `else` and redirects to the placeholder:
    on the one-image store with the backing file present but unreadable,
    the response is the placeholder redirect (status 303), not a 500. -/
theorem C8_counterexample :
    (get_image stOne fsDenied 0 0 inmNone).1 = .redirect "/static/missing.png" ∧
    statusOf (get_image stOne fsDenied 0 0 inmNone).1 = 303 ∧
    statusOf (get_image stOne fsDenied 0 0 inmNone).1 ≠ 500 := by
  have h : (get_image stOne fsDenied 0 0 inmNone).1 = .redirect "/static/missing.png" := by
    decide
  exact ⟨h, by rw [h]; rfl, by rw [h]; decide⟩

/-- C8 amended: on the read path the split is: invalid address gives 404;
    ANY failure to open the backing file - absent or unreadable alike -
    gives the soft placeholder redirect; and a stat failure after a
    successful open gives HTTP 500 with the error detail.  (The claim's
    "non-not-found open failure surfaces as 500" is what fails: only the
    post-open stat failure does.) -/
theorem C8_read_path_split (st : AppState) (fs : FS) (group_idx image_idx : Nat)
    (inm : IfNoneMatch) :
    (st.dups.get_image group_idx image_idx = none →
       get_image st fs group_idx image_idx inm = (.notFound "Invalid group or image index", [])) ∧
    (∀ image, st.dups.get_image group_idx image_idx = some image →
       inm.precondition_passes (etagValue st.base_dir group_idx image_idx image.path) = true →
       ((fs.lookup (pathJoin st.base_dir image.path) = none →
           get_image st fs group_idx image_idx inm =
             (.redirect "/static/missing.png", [.openOp (pathJoin st.base_dir image.path)])) ∧
        (fs.lookup (pathJoin st.base_dir image.path) = some .denied →
           get_image st fs group_idx image_idx inm =
             (.redirect "/static/missing.png", [.openOp (pathJoin st.base_dir image.path)])) ∧
        (∀ sz, fs.lookup (pathJoin st.base_dir image.path) = some (.present true sz) →
           get_image st fs group_idx image_idx inm =
             (.statError "Failed to stat file",
              [.openOp (pathJoin st.base_dir image.path), .statOp (pathJoin st.base_dir image.path)])) ∧
        (∀ sz, fs.lookup (pathJoin st.base_dir image.path) = some (.present false sz) →
           get_image st fs group_idx image_idx inm =
             (.fullBody ((mimeGuess image.path).getD "application/octet-stream")
                (etagValue st.base_dir group_idx image_idx image.path) sz,
              [.openOp (pathJoin st.base_dir image.path), .statOp (pathJoin st.base_dir image.path)])))) := by
  refine ⟨fun h => ?_, fun image himg hpass => ⟨fun h => ?_, fun h => ?_,
    fun sz h => ?_, fun sz h => ?_⟩⟩
  · simp [get_image, h]
  · simp [get_image, himg, parseETag_etagValue, hpass, FS.openFile, h]
  · simp [get_image, himg, parseETag_etagValue, hpass, FS.openFile, h]
  · simp [get_image, himg, parseETag_etagValue, hpass, FS.openFile, h, FS.statSize]
  · simp [get_image, himg, parseETag_etagValue, hpass, FS.openFile, h, FS.statSize]

/-- C8 amended witness: with the file absent the handler redirects to the
    placeholder, and with it present but failing to stat it returns the
    500 stat error. -/
theorem C8_read_path_split_witness :
    get_image stOne fsEmpty 0 0 inmNone =
      (.redirect "/static/missing.png", [.openOp "base/a.jpg"]) ∧
    get_image stOne fsStatFails 0 0 inmNone =
      (.statError "Failed to stat file", [.openOp "base/a.jpg", .statOp "base/a.jpg"]) :=
  ⟨((C8_read_path_split stOne fsEmpty 0 0 inmNone).2 ⟨"a.jpg", 1, 1⟩ rfl (by decide)).1 rfl,
   (((C8_read_path_split stOne fsStatFails 0 0 inmNone).2 ⟨"a.jpg", 1, 1⟩ rfl
      (by decide)).2.2.1 5 rfl)⟩

/-- C2: for a valid address the fingerprint is the double-quoted
    lowercase-hex SHA-256 of the canonical string
    base-directory, group index, image index, relative path joined with
    colons (a deterministic function of exactly those inputs - the
    embedding is pure, and `sha256hex` is grounded by the FIPS vectors
    above); when the client's If-None-Match precondition matches the
    fingerprint the handler answers "not modified", a response with
    headers but no body, identical for every filesystem state and with an
    empty operation trace - the file is never opened; when it does not
    match (and the file opens and stats normally) the handler answers a
    full transfer whose entity-tag header is the freshly computed
    fingerprint. -/
theorem C2_etag_conditional_get (st : AppState) (fs : FS) (group_idx image_idx : Nat)
    (image : ImgInfo) (inm : IfNoneMatch)
    (himg : st.dups.get_image group_idx image_idx = some image) :
    (etagValue st.base_dir group_idx image_idx image.path =
       "\"" ++ sha256hex (st.base_dir ++ ":" ++ toString group_idx ++ ":" ++
         toString image_idx ++ ":" ++ image.path) ++ "\"") ∧
    (inm.precondition_passes (etagValue st.base_dir group_idx image_idx image.path) = false →
       ∀ fs2 : FS, get_image st fs2 group_idx image_idx inm =
         (.notModified ((mimeGuess image.path).getD "application/octet-stream")
            (etagValue st.base_dir group_idx image_idx image.path), [])) ∧
    (inm.precondition_passes (etagValue st.base_dir group_idx image_idx image.path) = true →
       ∀ sz, fs.lookup (pathJoin st.base_dir image.path) = some (.present false sz) →
         get_image st fs group_idx image_idx inm =
           (.fullBody ((mimeGuess image.path).getD "application/octet-stream")
              (etagValue st.base_dir group_idx image_idx image.path) sz,
            [.openOp (pathJoin st.base_dir image.path), .statOp (pathJoin st.base_dir image.path)])) := by
  refine ⟨rfl, fun hmatch fs2 => ?_, fun hpass sz hsz => ?_⟩
  · simp [get_image, himg, parseETag_etagValue, hmatch]
  · simp [get_image, himg, parseETag_etagValue, hpass, FS.openFile, hsz, FS.statSize]

/-- C2 witness: on the one-image store, a wildcard If-None-Match (which
    matches every tag) yields "not modified" regardless of the filesystem,
    and an empty If-None-Match yields the full 5-byte transfer carrying
    the computed fingerprint. -/
theorem C2_etag_conditional_get_witness :
    get_image stOne fsEmpty 0 0 inmStar =
      (.notModified "image/jpeg" (etagValue "base" 0 0 "a.jpg"), []) ∧
    get_image stOne fsOne 0 0 inmNone =
      (.fullBody "image/jpeg" (etagValue "base" 0 0 "a.jpg") 5,
       [.openOp "base/a.jpg", .statOp "base/a.jpg"]) :=
  ⟨(C2_etag_conditional_get stOne fsEmpty 0 0 ⟨"a.jpg", 1, 1⟩ inmStar rfl).2.1 (by decide) fsEmpty,
   (C2_etag_conditional_get stOne fsOne 0 0 ⟨"a.jpg", 1, 1⟩ inmNone rfl).2.2 (by decide) 5 rfl⟩

/-- The per-line loop never stores an empty group: flushing an empty
    in-flight group is a no-op (the guard on `push_group`). -/
theorem parseLinesAux_no_empty : ∀ (lines : List String) (acc : List DupGroup)
    (group : DupGroup) (gs : List DupGroup),
    [] ∉ acc → parseLinesAux lines acc group = .ok gs → [] ∉ gs := by
  intro lines
  induction lines with
  | nil =>
    intro acc group gs hacc hok
    cases hemp : group.isEmpty with
    | true =>
      simp only [parseLinesAux, hemp, if_true] at hok
      cases hok
      exact hacc
    | false =>
      simp only [parseLinesAux, hemp] at hok
      cases hok
      intro hmem
      rcases List.mem_append.mp hmem with h | h
      · exact hacc h
      · have hg : group = [] := (List.mem_singleton.mp h).symm
        rw [hg] at hemp
        simp at hemp
  | cons line rest ih =>
    intro acc group gs hacc hok
    simp only [parseLinesAux] at hok
    cases hm : matchLine line.data with
    | none =>
      simp only [hm] at hok
      exact Except.noConfusion hok
    | some triple =>
      obtain ⟨w, hgt, pa⟩ := triple
      simp only [hm] at hok
      cases hw : parseU32 w with
      | error e =>
        simp only [hw] at hok
        exact Except.noConfusion hok
      | ok wv =>
        cases hh : parseU32 hgt with
        | error e =>
          simp only [hw, hh] at hok
          exact Except.noConfusion hok
        | ok hv =>
          simp only [hw, hh] at hok
          cases hst : startsWithTab line.data with
          | true =>
            simp only [hst, if_true] at hok
            exact ih _ _ _ hacc hok
          | false =>
            simp only [hst] at hok
            cases hemp : group.isEmpty with
            | true =>
              simp only [hemp, if_true] at hok
              exact ih _ _ _ hacc hok
            | false =>
              simp only [hemp] at hok
              refine ih _ _ _ ?_ hok
              intro hmem
              rcases List.mem_append.mp hmem with h | h
              · exact hacc h
              · have hg : group = [] := (List.mem_singleton.mp h).symm
                rw [hg] at hemp
                simp at hemp

/-- C5: on every input the parser accepts, no group in the store is empty:
    in particular the flush performed at a new-group line with no pending
    group (as at the very first line of the file) is a no-op rather than
    an error, and never emits an empty group. -/
theorem C5_groups_nonempty (lines : List String) (d : DupGroups)
    (hok : parse_dups lines = .ok d) : [] ∉ d.groups := by
  unfold parse_dups at hok
  cases hp : parseLinesAux lines [] [] with
  | error e =>
    simp only [hp] at hok
    exact Except.noConfusion hok
  | ok gs =>
    simp only [hp] at hok
    cases hok
    intro hmem
    have hmem2 : ([] : DupGroup) ∈ gs :=
      (List.perm_insertionSort groupLe gs).mem_iff.mp hmem
    exact parseLinesAux_no_empty lines [] [] gs (by simp) hp hmem2

/-- C5 witness: the spec's example report (whose first line starts a group
    with no pending group to flush) parses successfully and stores no
    empty group. -/
theorem C5_groups_nonempty_witness :
    [] ∉ (DupGroups.mk [[⟨"a/1.jpg", 100, 200⟩, ⟨"a/2.jpg", 100, 200⟩],
      [⟨"b/1.jpg", 50, 50⟩]]).groups :=
  C5_groups_nonempty
    ["img(100x200): a/1.jpg", "\timg(100x200): a/2.jpg", "img(50x50): b/1.jpg"] _ rfl

/-- C4: whenever parsing succeeds, the store's groups are sorted (under
    the byte-lexicographic, case-sensitive order) by the path of each
    group's first image, and the result is a function of the input text:
    any second parse of the same text returns the same store. -/
theorem C4_parse_sorted_deterministic (lines : List String) (d : DupGroups)
    (hok : parse_dups lines = .ok d) :
    List.Sorted groupLe d.groups ∧ (∀ d2, parse_dups lines = .ok d2 → d2 = d) := by
  constructor
  · unfold parse_dups at hok
    cases hp : parseLinesAux lines [] [] with
    | error e =>
      simp only [hp] at hok
      exact Except.noConfusion hok
    | ok gs =>
      simp only [hp] at hok
      cases hok
      haveI : IsTotal DupGroup groupLe := ⟨fun g1 g2 => lexLe_total _ _⟩
      haveI : IsTrans DupGroup groupLe := ⟨fun _ _ _ => lexLe_trans⟩
      exact List.sorted_insertionSort groupLe gs
  · intro d2 h2
    rw [hok] at h2
    exact (Except.ok.inj h2).symm

/-- C4 witness: the spec's example parses with `a/1.jpg` before `b/1.jpg`,
    sorted, and a re-parse returns the same store. -/
theorem C4_parse_sorted_deterministic_witness :
    List.Sorted groupLe [[⟨"a/1.jpg", 100, 200⟩, ⟨"a/2.jpg", 100, 200⟩],
      [⟨"b/1.jpg", 50, 50⟩]] ∧
    (∀ d2, parse_dups ["img(100x200): a/1.jpg", "\timg(100x200): a/2.jpg",
        "img(50x50): b/1.jpg"] = .ok d2 →
      d2 = ⟨[[⟨"a/1.jpg", 100, 200⟩, ⟨"a/2.jpg", 100, 200⟩], [⟨"b/1.jpg", 50, 50⟩]]⟩) :=
  C4_parse_sorted_deterministic
    ["img(100x200): a/1.jpg", "\timg(100x200): a/2.jpg", "img(50x50): b/1.jpg"] _ rfl

/-- C3 counterexample: an overflowing width is a fatal parse error, but
    its message is the bare `ParseIntError` text, which does NOT carry the
    offending line (the error is propagated by the bare try operator after
    the dimension captures, unlike the pattern-mismatch error); moreover a
    later pattern-failing line is then never reported, so an input
    containing such a line can fail with a message carrying neither that
    line nor any line. -/
theorem C3_counterexample :
    parse_dups ["img(4294967296x1): a.jpg"] =
      .error "number too large to fit in target type" ∧
    ¬ ("img(4294967296x1): a.jpg".data <:+:
        "number too large to fit in target type".data) ∧
    parse_dups ["img(4294967296x1): a.jpg", "garbage line"] =
      .error "number too large to fit in target type" ∧
    ¬ ("garbage line".data <:+: "number too large to fit in target type".data) :=
  ⟨rfl, by decide, rfl, by decide⟩

/-- Stepping the loop over one accepted line. -/
theorem parseLinesAux_cons_ok (p0 : String) (rest : List String)
    (w hgt pa : List Char)
    (hm : matchLine p0.data = some (w, hgt, pa))
    (hw : digitsToNat w < 4294967296) (hh : digitsToNat hgt < 4294967296) :
    ∀ acc group, parseLinesAux (p0 :: rest) acc group =
      parseLinesAux rest
        (if startsWithTab p0.data then acc else if group.isEmpty then acc else acc ++ [group])
        ((if startsWithTab p0.data then group else []) ++
          [⟨String.mk pa, digitsToNat w, digitsToNat hgt⟩]) := by
  intro acc group
  have h1 : parseU32 w = .ok (digitsToNat w) := by
    unfold parseU32
    rw [if_pos hw]
  have h2 : parseU32 hgt = .ok (digitsToNat hgt) := by
    unfold parseU32
    rw [if_pos hh]
  simp only [parseLinesAux, hm, h1, h2]
  cases hst : startsWithTab p0.data <;> simp [hst]

/-- The error produced by the first offending line: a pattern mismatch
    reports that line verbatim; an overflowing dimension reports only the
    integer-parse error text.  `pre` is any prefix of lines the parser
    accepts outright. -/
theorem parseLinesAux_first_bad : ∀ (pre : List String) (acc : List DupGroup)
    (group : DupGroup) (l : String) (post : List String),
    (∀ l2 ∈ pre, lineOk l2) →
    ((matchLine l.data = none →
        parseLinesAux (pre ++ l :: post) acc group =
          .error ("Line does not match expected format: " ++ l)) ∧
     (lineOverflows l = true →
        parseLinesAux (pre ++ l :: post) acc group =
          .error "number too large to fit in target type")) := by
  intro pre
  induction pre with
  | nil =>
    intro acc group l post _
    constructor
    · intro hm
      simp only [List.nil_append, parseLinesAux, hm]
    · intro hov
      cases hm : matchLine l.data with
      | none =>
        simp only [lineOverflows, hm] at hov
        exact Bool.noConfusion hov
      | some triple =>
        obtain ⟨w, hgt, pa⟩ := triple
        simp only [lineOverflows, hm, Bool.or_eq_true, decide_eq_true_eq] at hov
        simp only [List.nil_append, parseLinesAux, hm]
        by_cases hw : digitsToNat w < 4294967296
        · have h1 : parseU32 w = .ok (digitsToNat w) := by
            unfold parseU32
            rw [if_pos hw]
          have h2 : parseU32 hgt = .error "number too large to fit in target type" := by
            unfold parseU32
            rw [if_neg (by omega)]
          simp only [h1, h2]
        · have h1 : parseU32 w = .error "number too large to fit in target type" := by
            unfold parseU32
            rw [if_neg hw]
          simp only [h1]
  | cons p0 pre ih =>
    intro acc group l post hpre
    obtain ⟨hm0, hov0⟩ := hpre p0 (by simp)
    cases hm : matchLine p0.data with
    | none => exact absurd hm hm0
    | some triple =>
      obtain ⟨w, hgt, pa⟩ := triple
      have hov : (decide (4294967296 ≤ digitsToNat w) ||
          decide (4294967296 ≤ digitsToNat hgt)) = false := by
        rw [lineOverflows, hm] at hov0
        exact hov0
      rw [Bool.or_eq_false_iff, decide_eq_false_iff_not, decide_eq_false_iff_not] at hov
      rw [List.cons_append,
        parseLinesAux_cons_ok p0 (pre ++ l :: post) w hgt pa hm (by omega) (by omega)]
      exact ih _ _ l post (fun l2 hl2 => hpre l2 (by simp [hl2]))

/-- C3 amended: a line failing the pattern is reported verbatim in the
    parse error, provided no earlier line already failed: for any accepted
    prefix, a pattern-failing line yields the error
    "Line does not match expected format: " followed by that line's raw
    text; an overflowing width or height, however, yields the fatal error
    "number too large to fit in target type" WITHOUT the line context
    (and pre-empts the reporting of any later offending line). -/
theorem C3_parse_error_context (pre : List String) (l : String) (post : List String)
    (hpre : ∀ l2 ∈ pre, lineOk l2) :
    (matchLine l.data = none →
       parse_dups (pre ++ l :: post) =
         .error ("Line does not match expected format: " ++ l)) ∧
    (lineOverflows l = true →
       parse_dups (pre ++ l :: post) = .error "number too large to fit in target type") := by
  have h := parseLinesAux_first_bad pre [] [] l post hpre
  constructor
  · intro hm
    unfold parse_dups
    rw [h.1 hm]
  · intro hov
    unfold parse_dups
    rw [h.2 hov]

/-- C3 amended witness: after one accepted line, the pattern-failing line
    "garbage line" is reported verbatim, and an overflowing width line
    yields the bare overflow message. -/
theorem C3_parse_error_context_witness :
    parse_dups ["img(1x1): ok.jpg", "garbage line"] =
      .error ("Line does not match expected format: " ++ "garbage line") ∧
    parse_dups ["img(1x1): ok.jpg", "img(4294967296x1): a.jpg"] =
      .error "number too large to fit in target type" :=
  ⟨(C3_parse_error_context ["img(1x1): ok.jpg"] "garbage line" []
      (fun l2 hl2 => by
        rw [List.mem_singleton] at hl2
        subst hl2
        exact ⟨by decide, by decide⟩)).1 rfl,
   (C3_parse_error_context ["img(1x1): ok.jpg"] "img(4294967296x1): a.jpg" []
      (fun l2 hl2 => by
        rw [List.mem_singleton] at hl2
        subst hl2
        exact ⟨by decide, by decide⟩)).2 rfl⟩
